import Mathlib

/-!
Verification of the Minesweeper controller (`src/ms_controller.py`) against
its specification.  The board model (`ms_model.py`) is not part of the
sources, so its operations are modelled from the specification (§3, §4.1,
§7 of spec.md); the controller functions are translated directly from
`ms_controller.py`.
-/

set_option maxRecDepth 4000

/-- The four per-field states of `Field` (spec §3, referenced from the
controller as `Field.COVERED`, `Field.MINE_TAGGED`, `Field.MINE_POSSIBLE`). -/
inductive FieldState
  | Covered
  | Uncovered
  | MineTagged
  | MinePossible
deriving DecidableEq

/-- Modelled from the spec: the Board model of `ms_model.py` (absent from
src/).  Spec §3: a 2-D collection of fields indexed by `(x, y)` with
`0 ≤ x < width`, `0 ≤ y < height`, owning the set of mine coordinates.
The per-field `has_mine` flag is derived from the mine list; the per-field
state is a total map (cells outside the grid are irrelevant junk). -/
structure MinesweeperModel where
  width : Nat
  height : Nat
  mines : List (Nat × Nat)
  state : Nat → Nat → FieldState

/-- Modelled from the spec: whether the field `(x, y)` holds a mine
(spec §3, `has_mine`, derivable by scanning the mine set). -/
def MinesweeperModel.hasMine (m : MinesweeperModel) (x y : Nat) : Bool :=
  decide ((x, y) ∈ m.mines)

/-- Modelled from the spec: `field_state(x, y)` is a pure read of the
field's state (spec §4.1). -/
def MinesweeperModel.field_state (m : MinesweeperModel) (x y : Nat) : FieldState :=
  m.state x y

/-- Functional update of a single field's state. -/
def MinesweeperModel.setState (m : MinesweeperModel) (x y : Nat) (s : FieldState) :
    MinesweeperModel :=
  { m with state := fun a b => if a = x ∧ b = y then s else m.state a b }

/-- The 8 Moore neighbors of `(x, y)` in the order the controller visits
them (`src/ms_controller.py` lines 183–198: left, top left, top, top right,
right, bottom right, bottom, bottom left), each paired with its in-bounds
guard.  Python's `x - 1 >= 0` over ints is rendered as `1 ≤ x` (the
coordinates here are naturals, so truncated subtraction would make the
literal form vacuous). -/
def mooreNeighbors (cols rows x y : Nat) : List (Bool × Nat × Nat) :=
  [ (decide (1 ≤ x), (x - 1, y)),
    (decide (1 ≤ x) && decide (1 ≤ y), (x - 1, y - 1)),
    (decide (1 ≤ y), (x, y - 1)),
    (decide (x + 1 < cols) && decide (1 ≤ y), (x + 1, y - 1)),
    (decide (x + 1 < cols), (x + 1, y)),
    (decide (x + 1 < cols) && decide (y + 1 < rows), (x + 1, y + 1)),
    (decide (y + 1 < rows), (x, y + 1)),
    (decide (1 ≤ x) && decide (y + 1 < rows), (x - 1, y + 1)) ]

/-- Modelled from the spec: `adjacent_mine_count` equals the number of the
up-to-8 Moore neighbors, clipped at the board edges, that hold a mine
(spec §3 invariants). -/
def MinesweeperModel.adjacent_mine_count (m : MinesweeperModel) (x y : Nat) : Nat :=
  ((mooreNeighbors m.width m.height x y).filter
    (fun t => t.1 && m.hasMine t.2.1 t.2.2)).length

/-- Result of `Board.uncover` (spec §4.1): success carries the adjacent
mine count and the updated board; the three failures mirror the exception
taxonomy (`AlreadyUncoveredError`, `FieldTaggedError`, `MineFound`);
`outOfBounds` models the fail-fast behaviour spec §7 allows for the
out-of-bounds programming error. -/
inductive UncoverResult
  | ok (n : Nat) (m : MinesweeperModel)
  | alreadyUncovered
  | fieldTagged
  | mineFound (m : MinesweeperModel)
  | outOfBounds

/-- Modelled from the spec: `uncover(x, y)` (spec §4.1).  Fails with
`AlreadyUncovered` on an `Uncovered` field, with `FieldTagged` on a
`MineTagged`/`MinePossible` field, with `MineFound` on a mined field (the
state still transitions to `Uncovered`); otherwise transitions the field to
`Uncovered` and returns the precomputed adjacent mine count. -/
def MinesweeperModel.uncover (m : MinesweeperModel) (x y : Nat) : UncoverResult :=
  if x < m.width ∧ y < m.height then
    match m.field_state x y with
    | FieldState.Uncovered => UncoverResult.alreadyUncovered
    | FieldState.MineTagged => UncoverResult.fieldTagged
    | FieldState.MinePossible => UncoverResult.fieldTagged
    | FieldState.Covered =>
      if m.hasMine x y then
        UncoverResult.mineFound (m.setState x y FieldState.Uncovered)
      else
        UncoverResult.ok (m.adjacent_mine_count x y) (m.setState x y FieldState.Uncovered)
  else UncoverResult.outOfBounds

/-- Result of `Board.switch_tagging` (spec §4.1). -/
inductive TagResult
  | ok (s : FieldState) (m : MinesweeperModel)
  | alreadyUncovered
  | outOfBounds

/-- Modelled from the spec: `switch_tagging(x, y)` (spec §4.1).  Fails with
`AlreadyUncovered` on an `Uncovered` field; otherwise advances one step
along the ring `Covered → MineTagged → MinePossible → Covered` and returns
the new state. -/
def MinesweeperModel.switch_tagging (m : MinesweeperModel) (x y : Nat) : TagResult :=
  if x < m.width ∧ y < m.height then
    match m.field_state x y with
    | FieldState.Uncovered => TagResult.alreadyUncovered
    | FieldState.Covered =>
        TagResult.ok FieldState.MineTagged (m.setState x y FieldState.MineTagged)
    | FieldState.MineTagged =>
        TagResult.ok FieldState.MinePossible (m.setState x y FieldState.MinePossible)
    | FieldState.MinePossible =>
        TagResult.ok FieldState.Covered (m.setState x y FieldState.Covered)
  else TagResult.outOfBounds

/-- Number of in-grid fields currently in state `Covered`. -/
def coveredCount (m : MinesweeperModel) : Nat :=
  ((Finset.range m.width ×ˢ Finset.range m.height).filter
    (fun p => m.state p.1 p.2 = FieldState.Covered)).card

/-- The observable effects the controller performs on its view
(`self.view` / the buttons) while handling input; rendering details such as
stylesheets are abstracted to the data that selects them. -/
inductive Event
  | statusMessage (msg : String)
  | showLabel (x y n : Nat)
  | tagRendered (x y : Nat) (s : FieldState)
  | disableButtons
  | mineMark (x y : Nat) (found : Bool)
deriving DecidableEq

/-- The controller state of `MinesweeperController` (`src/ms_controller.py`
`__init__`): grid dimensions, the `game_running` flag and the model. -/
structure Controller where
  columns : Nat
  rows : Nat
  game_running : Bool
  model : MinesweeperModel

/-- `__init__` sets `self.columns`/`self.rows` and builds the model with
`width=self.columns, height=self.rows`, so both pairs agree. -/
def Controller.wf (c : Controller) : Prop :=
  c.columns = c.model.width ∧ c.rows = c.model.height

/-- Abnormal outcomes of a controller call: `fuelOut` is an artifact of the
fuel-indexed rendering of the recursion (it never occurs with sufficient
fuel, see `uncover_field_no_fuelOut`); `modelCrash` models an uncaught
model failure (the out-of-bounds fail-fast), which no handler in
`__uncover_field` catches. -/
inductive Abort
  | fuelOut
  | modelCrash
deriving DecidableEq

/-- `MinesweeperController.__lose` (`src/ms_controller.py` lines 235–260):
sets `game_running = False`, disables the buttons, and for every mine
coordinate marks the field, missed-style if its state is `Covered` and
found-style otherwise, then shows the losing message. -/
def Controller.lose (c : Controller) : Controller × List Event :=
  ({ c with game_running := false },
    Event.disableButtons ::
      c.model.mines.map (fun p =>
        if c.model.field_state p.1 p.2 = FieldState.Covered then
          Event.mineMark p.1 p.2 false
        else
          Event.mineMark p.1 p.2 true) ++
      [Event.statusMessage "You lost :("])

/-- The neighbor loop of `__uncover_field` (lines 182–198): for each
neighbor in source order, if its guard holds and its current state is
`Covered`, recurse via `step`; effects accumulate left to right. -/
def revealNeighbors
    (step : Controller → Nat → Nat → Except Abort (Controller × List Event)) :
    List (Bool × Nat × Nat) → Controller → List Event →
      Except Abort (Controller × List Event)
  | [], c, ev => Except.ok (c, ev)
  | (cond, nxy) :: rest, c, ev =>
    if cond = true ∧ c.model.field_state nxy.1 nxy.2 = FieldState.Covered then
      match step c nxy.1 nxy.2 with
      | Except.error a => Except.error a
      | Except.ok (c', ev') => revealNeighbors step rest c' (ev ++ ev')
    else
      revealNeighbors step rest c ev

/-- One level of `MinesweeperController.__uncover_field`
(`src/ms_controller.py` lines 152–205), with `step` standing for the
recursive call: try `model.uncover`; on success replace the button by the
count label and, when the count is 0, run the neighbor loop; swallow
`AlreadyUncoveredError`; report on `FieldTaggedError`; call `__lose` on
`MineFound`. -/
def uncoverStep
    (step : Controller → Nat → Nat → Except Abort (Controller × List Event))
    (c : Controller) (x y : Nat) : Except Abort (Controller × List Event) :=
  match c.model.uncover x y with
  | UncoverResult.ok n m =>
    if n = 0 then
      revealNeighbors step (mooreNeighbors c.columns c.rows x y)
        { c with model := m } [Event.showLabel x y n]
    else
      Except.ok ({ c with model := m }, [Event.showLabel x y n])
  | UncoverResult.alreadyUncovered => Except.ok (c, [])
  | UncoverResult.fieldTagged =>
      Except.ok (c, [Event.statusMessage "You need to untag the field before you can open it"])
  | UncoverResult.mineFound m => Except.ok (Controller.lose { c with model := m })
  | UncoverResult.outOfBounds => Except.error Abort.modelCrash

/-- Fuel-indexed rendering of the recursive `__uncover_field`; the fuel
bounds the recursion depth and `coveredCount + 1` always suffices
(`uncover_field_no_fuelOut`). -/
def uncover_field : Nat → Controller → Nat → Nat → Except Abort (Controller × List Event)
  | 0 => fun _ _ _ => Except.error Abort.fuelOut
  | fuel + 1 => uncoverStep (uncover_field fuel)

/-- `MinesweeperController.__tag_field` (lines 207–233): switch the tagging
state and render the result; `AlreadyUncoveredError` is swallowed. -/
def tag_field (c : Controller) (x y : Nat) : Except Abort (Controller × List Event) :=
  match c.model.switch_tagging x y with
  | TagResult.ok s m => Except.ok ({ c with model := m }, [Event.tagRendered x y s])
  | TagResult.alreadyUncovered => Except.ok (c, [])
  | TagResult.outOfBounds => Except.error Abort.modelCrash

/-- `MinesweeperController.button_clicked` (lines 115–133): decode the
linear position (`x = position % columns`, `y = position / columns`) and
uncover, or report that a restart is needed when the game is over. -/
def button_clicked (c : Controller) (position : Nat) :
    Except Abort (Controller × List Event) :=
  let x := position % c.columns
  let y := position / c.columns
  if c.game_running then
    uncover_field (coveredCount c.model + 1) c x y
  else
    Except.ok (c, [Event.statusMessage "You need to restart the game!"])

/-- `MinesweeperController.button_right_clicked` (lines 135–150): decode
the linear position and tag, or report that a restart is needed. -/
def button_right_clicked (c : Controller) (position : Nat) :
    Except Abort (Controller × List Event) :=
  let x := position % c.columns
  let y := position / c.columns
  if c.game_running then
    tag_field c x y
  else
    Except.ok (c, [Event.statusMessage "You need to restart the game!"])

/-- The events of a normally completed controller call. -/
def eventsOf (r : Except Abort (Controller × List Event)) : List Event :=
  match r with
  | Except.ok (_, ev) => ev
  | Except.error _ => []

/-! ### Basic lemmas about the model operations -/

theorem setState_width (m : MinesweeperModel) (x y : Nat) (s : FieldState) :
    (m.setState x y s).width = m.width := rfl

theorem setState_height (m : MinesweeperModel) (x y : Nat) (s : FieldState) :
    (m.setState x y s).height = m.height := rfl

theorem setState_mines (m : MinesweeperModel) (x y : Nat) (s : FieldState) :
    (m.setState x y s).mines = m.mines := rfl

theorem setState_state (m : MinesweeperModel) (x y : Nat) (s : FieldState) (a b : Nat) :
    (m.setState x y s).state a b = if a = x ∧ b = y then s else m.state a b := rfl

theorem coveredCount_setState_uncovered_le (m : MinesweeperModel) (x y : Nat) :
    coveredCount (m.setState x y FieldState.Uncovered) ≤ coveredCount m := by
  apply Finset.card_le_card
  intro p hp
  simp only [coveredCount, setState_width, setState_height, setState_state,
    Finset.mem_filter] at hp ⊢
  refine ⟨hp.1, ?_⟩
  have h2 := hp.2
  by_cases hpxy : p.1 = x ∧ p.2 = y
  · rw [if_pos hpxy] at h2
    exact absurd h2 (by simp)
  · rwa [if_neg hpxy] at h2

theorem coveredCount_setState_uncovered_lt (m : MinesweeperModel) (x y : Nat)
    (hx : x < m.width) (hy : y < m.height) (hs : m.state x y = FieldState.Covered) :
    coveredCount (m.setState x y FieldState.Uncovered) < coveredCount m := by
  have hsub : ((Finset.range (m.setState x y FieldState.Uncovered).width ×ˢ
      Finset.range (m.setState x y FieldState.Uncovered).height).filter
        (fun p => (m.setState x y FieldState.Uncovered).state p.1 p.2 = FieldState.Covered)) ⊆
      ((Finset.range m.width ×ˢ Finset.range m.height).filter
        (fun p => m.state p.1 p.2 = FieldState.Covered)) := by
    intro p hp
    simp only [setState_width, setState_height, setState_state, Finset.mem_filter] at hp ⊢
    refine ⟨hp.1, ?_⟩
    have h2 := hp.2
    by_cases hpxy : p.1 = x ∧ p.2 = y
    · rw [if_pos hpxy] at h2
      exact absurd h2 (by simp)
    · rwa [if_neg hpxy] at h2
  have hmem : (x, y) ∈ ((Finset.range m.width ×ˢ Finset.range m.height).filter
      (fun p => m.state p.1 p.2 = FieldState.Covered)) := by
    simp only [Finset.mem_filter, Finset.mem_product, Finset.mem_range]
    exact ⟨⟨hx, hy⟩, hs⟩
  have hnot : (x, y) ∉ ((Finset.range (m.setState x y FieldState.Uncovered).width ×ˢ
      Finset.range (m.setState x y FieldState.Uncovered).height).filter
        (fun p => (m.setState x y FieldState.Uncovered).state p.1 p.2 = FieldState.Covered)) := by
    simp [setState_width, setState_height, setState_state, Finset.mem_filter]
  exact Finset.card_lt_card
    ((Finset.ssubset_iff_of_subset hsub).mpr ⟨(x, y), hmem, hnot⟩)

theorem coveredCount_le_size (m : MinesweeperModel) :
    coveredCount m ≤ m.width * m.height := by
  calc coveredCount m ≤ (Finset.range m.width ×ˢ Finset.range m.height).card :=
        Finset.card_le_card (Finset.filter_subset _ _)
    _ = m.width * m.height := by
        rw [Finset.card_product, Finset.card_range, Finset.card_range]

theorem uncover_ok_inv {m : MinesweeperModel} {x y n : Nat} {m' : MinesweeperModel}
    (h : m.uncover x y = UncoverResult.ok n m') :
    x < m.width ∧ y < m.height ∧ m.state x y = FieldState.Covered ∧
      m.hasMine x y = false ∧ n = m.adjacent_mine_count x y ∧
      m' = m.setState x y FieldState.Uncovered := by
  unfold MinesweeperModel.uncover at h
  by_cases hb : x < m.width ∧ y < m.height
  · rw [if_pos hb] at h
    cases hfs : m.field_state x y <;>
      simp only [MinesweeperModel.field_state] at hfs <;>
      simp only [MinesweeperModel.field_state, hfs] at h
    · by_cases hm : m.hasMine x y
      · rw [if_pos (by simpa using hm)] at h
        exact absurd h (by simp)
      · rw [if_neg (by simpa using hm)] at h
        obtain ⟨hn, hm'⟩ := UncoverResult.ok.inj h
        exact ⟨hb.1, hb.2, hfs, by simpa using hm, hn.symm, hm'.symm⟩
    · exact absurd h (by simp)
    · exact absurd h (by simp)
    · exact absurd h (by simp)
  · rw [if_neg hb] at h
    exact absurd h (by simp)

theorem uncover_mineFound_inv {m : MinesweeperModel} {x y : Nat} {m' : MinesweeperModel}
    (h : m.uncover x y = UncoverResult.mineFound m') :
    x < m.width ∧ y < m.height ∧ m.state x y = FieldState.Covered ∧
      m.hasMine x y = true ∧ m' = m.setState x y FieldState.Uncovered := by
  unfold MinesweeperModel.uncover at h
  by_cases hb : x < m.width ∧ y < m.height
  · rw [if_pos hb] at h
    cases hfs : m.field_state x y <;>
      simp only [MinesweeperModel.field_state] at hfs <;>
      simp only [MinesweeperModel.field_state, hfs] at h
    · by_cases hm : m.hasMine x y
      · rw [if_pos (by simpa using hm)] at h
        exact ⟨hb.1, hb.2, hfs, hm, (UncoverResult.mineFound.inj h).symm⟩
      · rw [if_neg (by simpa using hm)] at h
        exact absurd h (by simp)
    · exact absurd h (by simp)
    · exact absurd h (by simp)
    · exact absurd h (by simp)
  · rw [if_neg hb] at h
    exact absurd h (by simp)

theorem uncover_covered {m : MinesweeperModel} {x y : Nat}
    (hx : x < m.width) (hy : y < m.height) (hs : m.state x y = FieldState.Covered) :
    m.uncover x y =
      if m.hasMine x y then
        UncoverResult.mineFound (m.setState x y FieldState.Uncovered)
      else
        UncoverResult.ok (m.adjacent_mine_count x y) (m.setState x y FieldState.Uncovered) := by
  unfold MinesweeperModel.uncover
  rw [if_pos ⟨hx, hy⟩]
  simp only [MinesweeperModel.field_state, hs]

/-! ### Unfolding equations for the controller recursion -/

theorem uncover_field_zero (c : Controller) (x y : Nat) :
    uncover_field 0 c x y = Except.error Abort.fuelOut := rfl

theorem uncover_field_succ (fuel : Nat) (c : Controller) (x y : Nat) :
    uncover_field (fuel + 1) c x y = uncoverStep (uncover_field fuel) c x y := rfl

theorem revealNeighbors_nil
    (step : Controller → Nat → Nat → Except Abort (Controller × List Event))
    (c : Controller) (ev : List Event) :
    revealNeighbors step [] c ev = Except.ok (c, ev) := rfl

theorem revealNeighbors_cons
    (step : Controller → Nat → Nat → Except Abort (Controller × List Event))
    (cond : Bool) (nxy : Nat × Nat) (rest : List (Bool × Nat × Nat))
    (c : Controller) (ev : List Event) :
    revealNeighbors step ((cond, nxy) :: rest) c ev =
      if cond = true ∧ c.model.field_state nxy.1 nxy.2 = FieldState.Covered then
        match step c nxy.1 nxy.2 with
        | Except.error a => Except.error a
        | Except.ok (c', ev') => revealNeighbors step rest c' (ev ++ ev')
      else
        revealNeighbors step rest c ev := by
  rfl

/-! ### Preservation along the flood fill -/

/-- What a single `__uncover_field` call preserves: the grid dimensions,
monotonicity of the covered-field count, and the `game_running` flag is
never switched back on. -/
def Pres (c c' : Controller) : Prop :=
  c'.columns = c.columns ∧ c'.rows = c.rows ∧
  c'.model.width = c.model.width ∧ c'.model.height = c.model.height ∧
  coveredCount c'.model ≤ coveredCount c.model ∧
  (c'.game_running = true → c.game_running = true)

theorem Pres_refl (c : Controller) : Pres c c :=
  ⟨rfl, rfl, rfl, rfl, le_refl _, fun h => h⟩

theorem Pres_trans {a b c : Controller} (h1 : Pres a b) (h2 : Pres b c) : Pres a c := by
  obtain ⟨A1, A2, A3, A4, A5, A6⟩ := h1
  obtain ⟨B1, B2, B3, B4, B5, B6⟩ := h2
  exact ⟨B1.trans A1, B2.trans A2, B3.trans A3, B4.trans A4, le_trans B5 A5,
    fun h => A6 (B6 h)⟩

theorem lose_fst (c : Controller) :
    (Controller.lose c).1 = { c with game_running := false } := rfl

theorem lose_mem_lost (c : Controller) :
    Event.statusMessage "You lost :(" ∈ (Controller.lose c).2 := by
  simp [Controller.lose]

theorem revealNeighbors_preserve
    (step : Controller → Nat → Nat → Except Abort (Controller × List Event))
    (hstep : ∀ c x y c' ev, step c x y = Except.ok (c', ev) →
      Pres c c' ∧ (c.game_running = true → c'.game_running = false →
        Event.statusMessage "You lost :(" ∈ ev)) :
    ∀ (nbs : List (Bool × Nat × Nat)) (c : Controller) (ev0 : List Event)
      (c' : Controller) (ev' : List Event),
      revealNeighbors step nbs c ev0 = Except.ok (c', ev') →
      Pres c c' ∧ ∃ tail, ev' = ev0 ++ tail ∧
        (c.game_running = true → c'.game_running = false →
          Event.statusMessage "You lost :(" ∈ tail) := by
  intro nbs
  induction nbs with
  | nil =>
    intro c ev0 c' ev' h
    rw [revealNeighbors_nil] at h
    simp only [Except.ok.injEq, Prod.mk.injEq] at h
    obtain ⟨hc, hev⟩ := h
    subst hc; subst hev
    refine ⟨Pres_refl c, [], by simp, ?_⟩
    intro h1 h2
    rw [h1] at h2
    exact Bool.noConfusion h2
  | cons head rest ih =>
    intro c ev0 c' ev' h
    obtain ⟨cond, nxy⟩ := head
    rw [revealNeighbors_cons] at h
    by_cases hg : cond = true ∧ c.model.field_state nxy.1 nxy.2 = FieldState.Covered
    · rw [if_pos hg] at h
      cases hstepres : step c nxy.1 nxy.2 with
      | error a =>
        rw [hstepres] at h
        exact absurd h (by simp)
      | ok p =>
        obtain ⟨c1, ev1⟩ := p
        rw [hstepres] at h
        obtain ⟨hpres1, hflip1⟩ := hstep c nxy.1 nxy.2 c1 ev1 hstepres
        obtain ⟨hpres2, tail1, htail1, hflip2⟩ := ih c1 (ev0 ++ ev1) c' ev' h
        refine ⟨Pres_trans hpres1 hpres2, ev1 ++ tail1,
          by rw [htail1, List.append_assoc], ?_⟩
        intro h1 h2
        cases hrun1 : c1.game_running with
        | true => exact List.mem_append_right _ (hflip2 hrun1 h2)
        | false => exact List.mem_append_left _ (hflip1 h1 hrun1)
    · rw [if_neg hg] at h
      exact ih c ev0 c' ev' h

theorem uncover_field_preserve :
    ∀ (fuel : Nat) (c : Controller) (x y : Nat) (c' : Controller) (ev : List Event),
      uncover_field fuel c x y = Except.ok (c', ev) →
      Pres c c' ∧ (c.game_running = true → c'.game_running = false →
        Event.statusMessage "You lost :(" ∈ ev) := by
  intro fuel
  induction fuel with
  | zero =>
    intro c x y c' ev h
    rw [uncover_field_zero] at h
    exact absurd h (by simp)
  | succ fuel ih =>
    intro c x y c' ev h
    rw [uncover_field_succ] at h
    unfold uncoverStep at h
    cases hu : c.model.uncover x y <;> rw [hu] at h <;> dsimp only at h
    case ok n m =>
      obtain ⟨hx, hy, hcov, hmine, hn', hm'⟩ := uncover_ok_inv hu
      have hpres0 : Pres c { c with model := m } := by
        refine ⟨rfl, rfl, ?_, ?_, ?_, fun h => h⟩
        · rw [hm', setState_width]
        · rw [hm', setState_height]
        · rw [hm']
          exact coveredCount_setState_uncovered_le c.model x y
      by_cases hn : n = 0
      · rw [if_pos hn] at h
        obtain ⟨hpres, tail, htail, hflip⟩ :=
          revealNeighbors_preserve (uncover_field fuel) ih _ _ _ _ _ h
        refine ⟨Pres_trans hpres0 hpres, ?_⟩
        intro h1 h2
        rw [htail]
        exact List.mem_append_right _ (hflip h1 h2)
      · rw [if_neg hn] at h
        simp only [Except.ok.injEq, Prod.mk.injEq] at h
        obtain ⟨hc, hev⟩ := h
        subst hc
        refine ⟨hpres0, ?_⟩
        intro h1 h2
        rw [h1] at h2
        exact Bool.noConfusion h2
    case alreadyUncovered =>
      simp only [Except.ok.injEq, Prod.mk.injEq] at h
      obtain ⟨hc, hev⟩ := h
      subst hc
      refine ⟨Pres_refl c, ?_⟩
      intro h1 h2
      rw [h1] at h2
      exact Bool.noConfusion h2
    case fieldTagged =>
      simp only [Except.ok.injEq, Prod.mk.injEq] at h
      obtain ⟨hc, hev⟩ := h
      subst hc
      refine ⟨Pres_refl c, ?_⟩
      intro h1 h2
      rw [h1] at h2
      exact Bool.noConfusion h2
    case mineFound m =>
      obtain ⟨hx, hy, hcov, hmine, hm'⟩ := uncover_mineFound_inv hu
      simp only [Except.ok.injEq] at h
      have hc := congrArg Prod.fst h
      have hev := congrArg Prod.snd h
      dsimp only at hc hev
      subst hc
      constructor
      · rw [lose_fst]
        refine ⟨rfl, rfl, ?_, ?_, ?_, ?_⟩
        · rw [hm', setState_width]
        · rw [hm', setState_height]
        · rw [hm']
          exact coveredCount_setState_uncovered_le c.model x y
        · intro hh
          exact absurd hh (by simp)
      · intro h1 h2
        rw [← hev]
        exact lose_mem_lost _
    case outOfBounds =>
      exact absurd h (by simp)

/-! ### The flood fill cannot run out of fuel -/

theorem revealNeighbors_no_fuelOut
    (fuel : Nat)
    (step : Controller → Nat → Nat → Except Abort (Controller × List Event))
    (hmono : ∀ c x y c' ev, step c x y = Except.ok (c', ev) →
      coveredCount c'.model ≤ coveredCount c.model)
    (hstep : ∀ c x y, coveredCount c.model < fuel →
      step c x y ≠ Except.error Abort.fuelOut) :
    ∀ (nbs : List (Bool × Nat × Nat)) (c : Controller) (ev : List Event),
      coveredCount c.model < fuel →
      revealNeighbors step nbs c ev ≠ Except.error Abort.fuelOut := by
  intro nbs
  induction nbs with
  | nil =>
    intro c ev hlt
    rw [revealNeighbors_nil]
    simp
  | cons head rest ih =>
    intro c ev hlt
    obtain ⟨cond, nxy⟩ := head
    rw [revealNeighbors_cons]
    by_cases hg : cond = true ∧ c.model.field_state nxy.1 nxy.2 = FieldState.Covered
    · rw [if_pos hg]
      cases hstepres : step c nxy.1 nxy.2 with
      | error a =>
        cases a with
        | fuelOut => exact absurd hstepres (hstep c nxy.1 nxy.2 hlt)
        | modelCrash => simp
      | ok p =>
        obtain ⟨c1, ev1⟩ := p
        exact ih c1 (ev ++ ev1) (lt_of_le_of_lt (hmono _ _ _ _ _ hstepres) hlt)
    · rw [if_neg hg]
      exact ih c ev hlt

theorem uncover_field_no_fuelOut :
    ∀ (fuel : Nat) (c : Controller) (x y : Nat),
      coveredCount c.model < fuel →
      uncover_field fuel c x y ≠ Except.error Abort.fuelOut := by
  intro fuel
  induction fuel with
  | zero =>
    intro c x y hlt
    exact absurd hlt (Nat.not_lt_zero _)
  | succ fuel ih =>
    intro c x y hlt
    rw [uncover_field_succ]
    unfold uncoverStep
    cases hu : c.model.uncover x y <;> dsimp only
    case ok n m =>
      obtain ⟨hx, hy, hcov, hmine, hn', hm'⟩ := uncover_ok_inv hu
      by_cases hn : n = 0
      · rw [if_pos hn]
        apply revealNeighbors_no_fuelOut fuel (uncover_field fuel)
        · intro c0 x0 y0 c1 ev1 hok
          exact (uncover_field_preserve fuel c0 x0 y0 c1 ev1 hok).1.2.2.2.2.1
        · intro c0 x0 y0 h0
          exact ih c0 x0 y0 h0
        · show coveredCount m < fuel
          have hdec : coveredCount m < coveredCount c.model := by
            rw [hm']
            exact coveredCount_setState_uncovered_lt c.model x y hx hy hcov
          omega
      · rw [if_neg hn]
        simp
    case alreadyUncovered => simp
    case fieldTagged => simp
    case mineFound m => simp
    case outOfBounds => simp

/-! ### The flood fill never leaves the grid and never hits a tagged field -/

theorem mooreNeighbors_bounds (cols rows x y : Nat) (hx : x < cols) (hy : y < rows) :
    ∀ t ∈ mooreNeighbors cols rows x y, t.1 = true → t.2.1 < cols ∧ t.2.2 < rows := by
  intro t ht hcond
  simp only [mooreNeighbors, List.mem_cons, List.not_mem_nil, or_false] at ht
  rcases ht with rfl | rfl | rfl | rfl | rfl | rfl | rfl | rfl <;>
    simp only [Bool.and_eq_true, decide_eq_true_eq] at hcond <;>
    dsimp only <;> constructor <;> omega

theorem untag_not_mem_lose (c : Controller) :
    Event.statusMessage "You need to untag the field before you can open it" ∉
      (Controller.lose c).2 := by
  intro h
  rcases List.mem_cons.mp h with h1 | h2
  · exact Event.noConfusion h1
  rcases List.mem_append.mp h2 with h3 | h4
  · rcases List.mem_map.mp h3 with ⟨p, hp, hpe⟩
    by_cases hcv : c.model.field_state p.1 p.2 = FieldState.Covered
    · rw [if_pos hcv] at hpe
      exact Event.noConfusion hpe
    · rw [if_neg hcv] at hpe
      exact Event.noConfusion hpe
  · have h5 := List.mem_singleton.mp h4
    have hs := Event.statusMessage.inj h5
    exact absurd hs (by decide)

theorem revealNeighbors_no_crash
    (step : Controller → Nat → Nat → Except Abort (Controller × List Event))
    (hstep : ∀ c x y, c.wf → x < c.model.width → y < c.model.height →
      c.model.field_state x y = FieldState.Covered →
      step c x y ≠ Except.error Abort.modelCrash ∧
      ∀ c' ev, step c x y = Except.ok (c', ev) →
        Event.statusMessage "You need to untag the field before you can open it" ∉ ev)
    (hpres : ∀ c x y c' ev, step c x y = Except.ok (c', ev) → Pres c c') :
    ∀ (nbs : List (Bool × Nat × Nat)) (W H : Nat) (c : Controller) (ev0 : List Event),
      c.wf → c.model.width = W → c.model.height = H →
      (∀ t ∈ nbs, t.1 = true → t.2.1 < W ∧ t.2.2 < H) →
      Event.statusMessage "You need to untag the field before you can open it" ∉ ev0 →
      revealNeighbors step nbs c ev0 ≠ Except.error Abort.modelCrash ∧
      ∀ c' ev', revealNeighbors step nbs c ev0 = Except.ok (c', ev') →
        Event.statusMessage "You need to untag the field before you can open it" ∉ ev' := by
  intro nbs
  induction nbs with
  | nil =>
    intro W H c ev0 hwf hW hH hbounds hev0
    rw [revealNeighbors_nil]
    refine ⟨by simp, ?_⟩
    intro c' ev' h
    simp only [Except.ok.injEq, Prod.mk.injEq] at h
    rw [← h.2]
    exact hev0
  | cons head rest ih =>
    intro W H c ev0 hwf hW hH hbounds hev0
    obtain ⟨cond, nxy⟩ := head
    rw [revealNeighbors_cons]
    by_cases hg : cond = true ∧ c.model.field_state nxy.1 nxy.2 = FieldState.Covered
    · rw [if_pos hg]
      have hb : nxy.1 < W ∧ nxy.2 < H :=
        hbounds (cond, nxy) (List.mem_cons_self _ _) hg.1
      obtain ⟨hnc, hnu⟩ := hstep c nxy.1 nxy.2 hwf (by omega) (by omega) hg.2
      cases hstepres : step c nxy.1 nxy.2 with
      | error a =>
        cases a with
        | fuelOut => exact ⟨by simp, by intro c' ev' h; exact absurd h (by simp)⟩
        | modelCrash => exact absurd hstepres hnc
      | ok p =>
        obtain ⟨c1, ev1⟩ := p
        have hpres1 := hpres c nxy.1 nxy.2 c1 ev1 hstepres
        obtain ⟨P1, P2, P3, P4, P5, P6⟩ := hpres1
        have hwf1 : c1.wf := by
          obtain ⟨W1, W2⟩ := hwf
          exact ⟨by rw [P1, P3, W1], by rw [P2, P4, W2]⟩
        have hev1 := hnu c1 ev1 hstepres
        have hrest : ∀ t ∈ rest, t.1 = true → t.2.1 < W ∧ t.2.2 < H := by
          intro t ht hc
          exact hbounds t (List.mem_cons_of_mem _ ht) hc
        have hnotmem :
            Event.statusMessage "You need to untag the field before you can open it" ∉
              ev0 ++ ev1 := by
          intro hmem
          rcases List.mem_append.mp hmem with hmem | hmem
          · exact hev0 hmem
          · exact hev1 hmem
        exact ih W H c1 (ev0 ++ ev1) hwf1 (by rw [P3, hW]) (by rw [P4, hH])
          hrest hnotmem
    · rw [if_neg hg]
      have hrest : ∀ t ∈ rest, t.1 = true → t.2.1 < W ∧ t.2.2 < H := by
        intro t ht hc
        exact hbounds t (List.mem_cons_of_mem _ ht) hc
      exact ih W H c ev0 hwf hW hH hrest hev0

theorem uncover_field_no_crash :
    ∀ (fuel : Nat) (c : Controller) (x y : Nat),
      c.wf → x < c.model.width → y < c.model.height →
      c.model.field_state x y = FieldState.Covered →
      uncover_field fuel c x y ≠ Except.error Abort.modelCrash ∧
      ∀ c' ev, uncover_field fuel c x y = Except.ok (c', ev) →
        Event.statusMessage "You need to untag the field before you can open it" ∉ ev := by
  intro fuel
  induction fuel with
  | zero =>
    intro c x y _ _ _ _
    rw [uncover_field_zero]
    exact ⟨by simp, by intro c' ev h; exact absurd h (by simp)⟩
  | succ fuel ih =>
    intro c x y hwf hx hy hcov
    rw [uncover_field_succ]
    unfold uncoverStep
    rw [uncover_covered hx hy hcov]
    by_cases hm : c.model.hasMine x y
    · rw [if_pos hm]
      dsimp only
      refine ⟨by simp, ?_⟩
      intro c' ev h
      simp only [Except.ok.injEq] at h
      have hev := congrArg Prod.snd h
      dsimp only at hev
      rw [← hev]
      exact untag_not_mem_lose _
    · rw [if_neg hm]
      dsimp only
      by_cases hn : c.model.adjacent_mine_count x y = 0
      · rw [if_pos hn]
        apply revealNeighbors_no_crash (uncover_field fuel) ih
          (fun c0 x0 y0 c1 ev1 hok => (uncover_field_preserve fuel c0 x0 y0 c1 ev1 hok).1)
          _ c.model.width c.model.height
        · exact ⟨hwf.1, hwf.2⟩
        · rfl
        · rfl
        · have hxc : x < c.columns := by rw [hwf.1]; exact hx
          have hyc : y < c.rows := by rw [hwf.2]; exact hy
          have hb := mooreNeighbors_bounds c.columns c.rows x y hxc hyc
          intro t ht hc
          obtain ⟨h1, h2⟩ := hb t ht hc
          rw [hwf.1] at h1
          rw [hwf.2] at h2
          exact ⟨h1, h2⟩
        · simp
      · rw [if_neg hn]
        refine ⟨by simp, ?_⟩
        intro c' ev h
        simp only [Except.ok.injEq, Prod.mk.injEq] at h
        rw [← h.2]
        simp

/-! ### Concrete example boards used as witnesses -/

/-- A 2×2 board with no mines, all fields covered. -/
def exModelOpen : MinesweeperModel :=
  ⟨2, 2, [], fun _ _ => FieldState.Covered⟩

/-- A running controller on the open 2×2 board. -/
def exCtlOpen : Controller := ⟨2, 2, true, exModelOpen⟩

/-- The spec's 1×1 board with a single mine. -/
def exModelMine : MinesweeperModel :=
  ⟨1, 1, [(0, 0)], fun _ _ => FieldState.Covered⟩

/-- A running controller on the 1×1 mined board. -/
def exCtlMine : Controller := ⟨1, 1, true, exModelMine⟩

/-- A 1×1 board whose only field is already uncovered. -/
def exModelUnc : MinesweeperModel :=
  ⟨1, 1, [], fun _ _ => FieldState.Uncovered⟩

/-- A running controller on the uncovered 1×1 board. -/
def exCtlUnc : Controller := ⟨1, 1, true, exModelUnc⟩

/-- A 1×1 board whose only field is tagged as a mine. -/
def exModelTag : MinesweeperModel :=
  ⟨1, 1, [], fun _ _ => FieldState.MineTagged⟩

/-- A running controller on the tagged 1×1 board. -/
def exCtlTag : Controller := ⟨1, 1, true, exModelTag⟩

/-- A controller whose game has already ended. -/
def exCtlStopped : Controller := ⟨2, 2, false, exModelOpen⟩

/-- A 2×1 board with mines on both fields, where `(1, 0)` is tagged
"possibly a mine" (`MinePossible`) and `(0, 0)` is still covered. -/
def exModelLoss : MinesweeperModel :=
  ⟨2, 1, [(0, 0), (1, 0)],
    fun a b => if a = 1 ∧ b = 0 then FieldState.MinePossible else FieldState.Covered⟩

/-- A running controller on the 2×1 loss board. -/
def exCtlLoss : Controller := ⟨2, 1, true, exModelLoss⟩

/-! ### Claims -/

/-- C1: when an uncover call on `(x, y)` succeeds with adjacent-mine count
`n = 0`, the reveal recurses over the 8 Moore neighbors via the
covered-and-in-bounds-guarded loop (`revealNeighbors` on
`mooreNeighbors`); when `n > 0` it performs no recursive reveal and
returns with only the count label rendered. -/
theorem claim_c1_flood_fill_dispatch (c : Controller) (x y n fuel : Nat)
    (m' : MinesweeperModel)
    (h : c.model.uncover x y = UncoverResult.ok n m') :
    uncover_field (fuel + 1) c x y =
      if n = 0 then
        revealNeighbors (uncover_field fuel) (mooreNeighbors c.columns c.rows x y)
          { c with model := m' } [Event.showLabel x y n]
      else
        Except.ok ({ c with model := m' }, [Event.showLabel x y n]) := by
  rw [uncover_field_succ]
  unfold uncoverStep
  rw [h]

/-- Witness for C1 at the open 2×2 board: uncovering `(0, 0)` succeeds with
count 0 and dispatches into the neighbor loop. -/
theorem claim_c1_flood_fill_dispatch_witness :
    exCtlOpen.model.uncover 0 0 =
      UncoverResult.ok 0 (exModelOpen.setState 0 0 FieldState.Uncovered) ∧
    uncover_field 2 exCtlOpen 0 0 =
      revealNeighbors (uncover_field 1) (mooreNeighbors 2 2 0 0)
        { exCtlOpen with model := exModelOpen.setState 0 0 FieldState.Uncovered }
        [Event.showLabel 0 0 0] :=
  ⟨rfl, claim_c1_flood_fill_dispatch exCtlOpen 0 0 0 1
    (exModelOpen.setState 0 0 FieldState.Uncovered) rfl⟩

/-- C2 counterexample: on the 2×1 board with both fields mined and `(1, 0)`
in state `MinePossible`, revealing the covered mine at `(0, 0)` loses the
game and the sweep classifies the `MinePossible` mine at `(1, 0)` as found
(`mineMark 1 0 true`), although its pre-loss state is not `MineTagged` —
the claim would require it to be classified as missed. -/
theorem claim_c2_loss_report_counterexample :
    exCtlLoss.model.field_state 1 0 = FieldState.MinePossible ∧
    (1, 0) ∈ exCtlLoss.model.mines ∧
    Event.mineMark 1 0 true ∈ eventsOf (button_clicked exCtlLoss 0) ∧
    Event.mineMark 1 0 false ∉ eventsOf (button_clicked exCtlLoss 0) := by
  decide

/-- C2 amended: after the session is lost, the mine sweep classifies a mine
as found iff its state at sweep time is not `Covered` (so `MineTagged`,
`MinePossible` and the detonated, now-`Uncovered` mine all render
found-style), and as missed iff it is still `Covered`. -/
theorem claim_c2_loss_report_amended (c : Controller) (x y : Nat)
    (h : (x, y) ∈ c.model.mines) :
    (Controller.lose c).1.game_running = false ∧
    Event.mineMark x y
        (if c.model.field_state x y = FieldState.Covered then false else true) ∈
      (Controller.lose c).2 := by
  refine ⟨rfl, ?_⟩
  apply List.mem_cons_of_mem
  apply List.mem_append_left
  apply List.mem_map.mpr
  refine ⟨(x, y), h, ?_⟩
  dsimp only
  by_cases hcv : c.model.field_state x y = FieldState.Covered
  · rw [if_pos hcv, if_pos hcv]
  · rw [if_neg hcv, if_neg hcv]

/-- Witness for the amended C2 at the 2×1 loss board. -/
theorem claim_c2_loss_report_amended_witness :
    (1, 0) ∈ exCtlLoss.model.mines ∧
    ((Controller.lose exCtlLoss).1.game_running = false ∧
      Event.mineMark 1 0
          (if exCtlLoss.model.field_state 1 0 = FieldState.Covered then false else true) ∈
        (Controller.lose exCtlLoss).2) :=
  ⟨by decide, claim_c2_loss_report_amended exCtlLoss 1 0 (by decide)⟩

/-- Helper for C3: `__tag_field` never changes the `game_running` flag. -/
theorem tag_field_running (c : Controller) (x y : Nat) (c' : Controller)
    (ev : List Event) (h : tag_field c x y = Except.ok (c', ev)) :
    c'.game_running = c.game_running := by
  unfold tag_field at h
  cases hst : c.model.switch_tagging x y <;> rw [hst] at h <;> dsimp only at h
  case ok s m =>
    simp only [Except.ok.injEq, Prod.mk.injEq] at h
    rw [← h.1]
  case alreadyUncovered =>
    simp only [Except.ok.injEq, Prod.mk.injEq] at h
    rw [← h.1]
  case outOfBounds => exact absurd h (by simp)

/-- C3: when the session is not running, a click or right click only shows
the restart message and leaves the controller unchanged (no board
operation); `game_running` is never switched back to `true` by any handler,
and when a click flips it from `true` to `false` the losing message (mine
detonation handling) is among the emitted events. -/
theorem claim_c3_not_running_gate (c : Controller) (p : Nat) :
    (c.game_running = false →
      button_clicked c p =
        Except.ok (c, [Event.statusMessage "You need to restart the game!"]) ∧
      button_right_clicked c p =
        Except.ok (c, [Event.statusMessage "You need to restart the game!"])) ∧
    (∀ c' ev, button_clicked c p = Except.ok (c', ev) →
      (c'.game_running = true → c.game_running = true) ∧
      (c.game_running = true → c'.game_running = false →
        Event.statusMessage "You lost :(" ∈ ev)) ∧
    (∀ c' ev, button_right_clicked c p = Except.ok (c', ev) →
      c'.game_running = c.game_running) := by
  refine ⟨?_, ?_, ?_⟩
  · intro h
    unfold button_clicked button_right_clicked
    rw [h]
    simp
  · intro c' ev h
    simp only [button_clicked] at h
    by_cases hr : c.game_running = true
    · rw [if_pos hr] at h
      have hp := uncover_field_preserve _ _ _ _ _ _ h
      exact ⟨fun _ => hr, hp.2⟩
    · rw [if_neg hr] at h
      simp only [Except.ok.injEq, Prod.mk.injEq] at h
      obtain ⟨hc, hev⟩ := h
      subst hc
      refine ⟨fun hh => hh, ?_⟩
      intro h1 h2
      rw [h1] at h2
      exact Bool.noConfusion h2
  · intro c' ev h
    simp only [button_right_clicked] at h
    by_cases hr : c.game_running = true
    · rw [if_pos hr] at h
      exact tag_field_running _ _ _ _ _ h
    · rw [if_neg hr] at h
      simp only [Except.ok.injEq, Prod.mk.injEq] at h
      rw [← h.1]

/-- Witness for C3 at a stopped controller: both handlers only report the
restart message. -/
theorem claim_c3_not_running_gate_witness :
    exCtlStopped.game_running = false ∧
    button_clicked exCtlStopped 0 =
      Except.ok (exCtlStopped, [Event.statusMessage "You need to restart the game!"]) ∧
    button_right_clicked exCtlStopped 0 =
      Except.ok (exCtlStopped, [Event.statusMessage "You need to restart the game!"]) :=
  ⟨rfl, (claim_c3_not_running_gate exCtlStopped 0).1 rfl⟩

/-- C4: uncovering a covered mined field makes `__uncover_field` invoke
`__lose`, whose resulting controller has `game_running = false`: revealing
a mined field always ends the session. -/
theorem claim_c4_mine_ends_session (c : Controller) (x y fuel : Nat)
    (hx : x < c.model.width) (hy : y < c.model.height)
    (hm : c.model.hasMine x y = true)
    (hs : c.model.field_state x y = FieldState.Covered) :
    uncover_field (fuel + 1) c x y =
      Except.ok (Controller.lose
        { c with model := c.model.setState x y FieldState.Uncovered }) ∧
    (Controller.lose
        { c with model := c.model.setState x y FieldState.Uncovered }).1.game_running
      = false := by
  constructor
  · rw [uncover_field_succ]
    unfold uncoverStep
    rw [uncover_covered hx hy hs, if_pos hm]
  · rfl

/-- Witness for C4: the spec's 1×1 board with one mine; revealing `(0, 0)`
ends the session. -/
theorem claim_c4_mine_ends_session_witness :
    exCtlMine.model.hasMine 0 0 = true ∧
    exCtlMine.model.field_state 0 0 = FieldState.Covered ∧
    uncover_field 1 exCtlMine 0 0 =
      Except.ok (Controller.lose
        { exCtlMine with model := exCtlMine.model.setState 0 0 FieldState.Uncovered }) ∧
    (Controller.lose
        { exCtlMine with
          model := exCtlMine.model.setState 0 0 FieldState.Uncovered }).1.game_running
      = false :=
  ⟨by decide, rfl,
    (claim_c4_mine_ends_session exCtlMine 0 0 0 (by decide) (by decide)
      (by decide) rfl).1,
    (claim_c4_mine_ends_session exCtlMine 0 0 0 (by decide) (by decide)
      (by decide) rfl).2⟩

/-- C5: an `AlreadyUncovered` failure is swallowed silently by both the
reveal operation (no report, no state change — the flood-fill base case)
and the tag operation. -/
theorem claim_c5_already_uncovered_swallowed (c : Controller) (x y fuel : Nat) :
    (c.model.uncover x y = UncoverResult.alreadyUncovered →
      uncover_field (fuel + 1) c x y = Except.ok (c, [])) ∧
    (c.model.switch_tagging x y = TagResult.alreadyUncovered →
      tag_field c x y = Except.ok (c, [])) := by
  constructor
  · intro h
    rw [uncover_field_succ]
    unfold uncoverStep
    rw [h]
  · intro h
    unfold tag_field
    rw [h]

/-- Witness for C5 at the 1×1 board whose field is already uncovered. -/
theorem claim_c5_already_uncovered_swallowed_witness :
    exCtlUnc.model.uncover 0 0 = UncoverResult.alreadyUncovered ∧
    exCtlUnc.model.switch_tagging 0 0 = TagResult.alreadyUncovered ∧
    uncover_field 1 exCtlUnc 0 0 = Except.ok (exCtlUnc, []) ∧
    tag_field exCtlUnc 0 0 = Except.ok (exCtlUnc, []) :=
  ⟨rfl, rfl,
    (claim_c5_already_uncovered_swallowed exCtlUnc 0 0 0).1 rfl,
    (claim_c5_already_uncovered_swallowed exCtlUnc 0 0 0).2 rfl⟩

/-- C6: a `FieldTagged` failure makes the reveal operation report the
untag-first message and return with the controller unchanged — no reveal
and no flood-fill recursion. -/
theorem claim_c6_field_tagged_reported (c : Controller) (x y fuel : Nat)
    (h : c.model.uncover x y = UncoverResult.fieldTagged) :
    uncover_field (fuel + 1) c x y =
      Except.ok (c,
        [Event.statusMessage "You need to untag the field before you can open it"]) := by
  rw [uncover_field_succ]
  unfold uncoverStep
  rw [h]

/-- Witness for C6 at the 1×1 board whose field is tagged. -/
theorem claim_c6_field_tagged_reported_witness :
    exCtlTag.model.uncover 0 0 = UncoverResult.fieldTagged ∧
    uncover_field 1 exCtlTag 0 0 =
      Except.ok (exCtlTag,
        [Event.statusMessage "You need to untag the field before you can open it"]) :=
  ⟨rfl, claim_c6_field_tagged_reported exCtlTag 0 0 0 rfl⟩

/-- C7: decoding a linear position `columns * y + x` (with `x < columns`)
by `% columns` and `/ columns` recovers `(x, y)`, and both handlers act on
exactly that field. -/
theorem claim_c7_position_roundtrip (c : Controller) (x y : Nat)
    (hx : x < c.columns) :
    (c.columns * y + x) % c.columns = x ∧
    (c.columns * y + x) / c.columns = y ∧
    (c.game_running = true →
      button_clicked c (c.columns * y + x) =
        uncover_field (coveredCount c.model + 1) c x y ∧
      button_right_clicked c (c.columns * y + x) = tag_field c x y) := by
  have hc : 0 < c.columns := Nat.pos_of_ne_zero (by omega)
  have hmod : (c.columns * y + x) % c.columns = x := by
    rw [Nat.mul_add_mod]
    exact Nat.mod_eq_of_lt hx
  have hdiv : (c.columns * y + x) / c.columns = y := by
    rw [Nat.mul_add_div hc, Nat.div_eq_of_lt hx, Nat.add_zero]
  refine ⟨hmod, hdiv, ?_⟩
  intro hr
  constructor
  · simp only [button_clicked]
    rw [hmod, hdiv, if_pos hr]
  · simp only [button_right_clicked]
    rw [hmod, hdiv, if_pos hr]

/-- Witness for C7 at the 2×2 board with `(x, y) = (1, 1)`, position 3. -/
theorem claim_c7_position_roundtrip_witness :
    1 < exCtlOpen.columns ∧ exCtlOpen.game_running = true ∧
    (exCtlOpen.columns * 1 + 1) % exCtlOpen.columns = 1 ∧
    (exCtlOpen.columns * 1 + 1) / exCtlOpen.columns = 1 ∧
    button_clicked exCtlOpen (exCtlOpen.columns * 1 + 1) =
      uncover_field (coveredCount exCtlOpen.model + 1) exCtlOpen 1 1 ∧
    button_right_clicked exCtlOpen (exCtlOpen.columns * 1 + 1) =
      tag_field exCtlOpen 1 1 :=
  ⟨by decide, rfl,
    (claim_c7_position_roundtrip exCtlOpen 1 1 (by decide)).1,
    (claim_c7_position_roundtrip exCtlOpen 1 1 (by decide)).2.1,
    ((claim_c7_position_roundtrip exCtlOpen 1 1 (by decide)).2.2 rfl).1,
    ((claim_c7_position_roundtrip exCtlOpen 1 1 (by decide)).2.2 rfl).2⟩

/-- C8: the flood fill terminates on every board and starting coordinate:
fuel `coveredCount + 1` is never exhausted (each recursion level consumes
one previously covered field), the covered count is bounded by
`width * height`, and hence fuel `width * height + 1` also suffices. -/
theorem claim_c8_flood_fill_terminates (c : Controller) (x y : Nat) :
    uncover_field (coveredCount c.model + 1) c x y ≠ Except.error Abort.fuelOut ∧
    coveredCount c.model ≤ c.model.width * c.model.height ∧
    uncover_field (c.model.width * c.model.height + 1) c x y ≠
      Except.error Abort.fuelOut := by
  have h2 := coveredCount_le_size c.model
  exact ⟨uncover_field_no_fuelOut _ c x y (Nat.lt_succ_self _), h2,
    uncover_field_no_fuelOut _ c x y (by omega)⟩

/-- C9: `__lose` mutates nothing but the `game_running` flag: the model
(all field states and mine positions) and the grid dimensions are
unchanged, and the sweep over the mine list only reads states. -/
theorem claim_c9_lose_frame (c : Controller) :
    (Controller.lose c).1.model = c.model ∧
    (Controller.lose c).1.columns = c.columns ∧
    (Controller.lose c).1.rows = c.rows ∧
    (Controller.lose c).1.game_running = false :=
  ⟨rfl, rfl, rfl, rfl⟩

/-- C10: starting a reveal on an in-bounds covered field, the flood fill
(whose recursive calls are guarded by the in-bounds and `Covered` checks)
never triggers the out-of-bounds model failure and never produces the
`FieldTagged` untag-first rejection among its events. -/
theorem claim_c10_flood_fill_safety (c : Controller) (x y fuel : Nat)
    (hwf1 : c.columns = c.model.width) (hwf2 : c.rows = c.model.height)
    (hx : x < c.model.width) (hy : y < c.model.height)
    (hcov : c.model.field_state x y = FieldState.Covered) :
    uncover_field fuel c x y ≠ Except.error Abort.modelCrash ∧
    ∀ c' ev, uncover_field fuel c x y = Except.ok (c', ev) →
      Event.statusMessage "You need to untag the field before you can open it" ∉ ev :=
  uncover_field_no_crash fuel c x y ⟨hwf1, hwf2⟩ hx hy hcov

/-- Witness for C10 at the open 2×2 board. -/
theorem claim_c10_flood_fill_safety_witness :
    0 < exCtlOpen.model.width ∧
    exCtlOpen.model.field_state 0 0 = FieldState.Covered ∧
    uncover_field 5 exCtlOpen 0 0 ≠ Except.error Abort.modelCrash :=
  ⟨by decide, rfl,
    (claim_c10_flood_fill_safety exCtlOpen 0 0 5 rfl rfl (by decide) (by decide)
      rfl).1⟩
